import Mathlib

/-!
Shallow embedding of the todo_egui application (src/main.rs).

The application is a single-table CRUD todo list.  The rusqlite
`Connection` is modelled by the list of table rows `db` together with the
AUTOINCREMENT counter `next_id`; every store operation is translated
directly from the corresponding Rust method of `TodoApp`.
-/

namespace Todo

/-- Whitespace predicate used by string trimming; models
Rust's `char::is_whitespace` on the characters the app manipulates. -/
def isWs (c : Char) : Bool := c.isWhitespace

/-- Drop leading and trailing whitespace from a character list. -/
def trimChars (l : List Char) : List Char :=
  ((l.dropWhile isWs).reverse.dropWhile isWs).reverse

/-- Models `str::trim` from the Rust standard library. -/
def trim (s : String) : String := String.mk (trimChars s.data)

/-- A row of the `todos` table (`struct TodoItem` in src/main.rs). -/
structure TodoItem where
  id : Int
  title : String
  description : Option String
  done : Bool
  deleted : Bool
deriving DecidableEq, Repr

/-- The view filter (`enum Filter` in src/main.rs). -/
inductive Filter where
  | All
  | Active
  | Completed
  | Deleted
deriving DecidableEq, Repr

/-- The application state (`struct TodoApp` in src/main.rs).  The
`conn : Connection` field is modelled by the table contents `db` and the
store-assigned id counter `next_id`. -/
structure TodoApp where
  db : List TodoItem
  next_id : Int
  todos : List TodoItem
  new_title : String
  new_description : String
  edit_todo_id : Option Int
  edit_title : String
  edit_description : String
  filter : Filter
deriving DecidableEq, Repr

/-- `fn load_todos`: `SELECT id, title, description, done, deleted FROM
todos` replaces the in-memory snapshot with the full table contents. -/
def load_todos (app : TodoApp) : TodoApp :=
  { app with todos := app.db }

/-- `fn add_todo`: trims the title buffer; when non-empty, inserts a row
with the trimmed title, the trimmed-or-NULL description, `done = 0`,
`deleted = 0`, clears both form buffers and reloads. -/
def add_todo (app : TodoApp) : TodoApp :=
  let title := trim app.new_title
  if title = "" then app
  else
    let desc := trim app.new_description
    let desc_opt := if desc = "" then none else some desc
    load_todos { app with
      db := app.db ++ [{ id := app.next_id, title := title,
                         description := desc_opt, done := false,
                         deleted := false }],
      next_id := app.next_id + 1,
      new_title := "",
      new_description := "" }

/-- `fn toggle_done`: `UPDATE todos SET done = !current WHERE id = ?`,
then reload. -/
def toggle_done (app : TodoApp) (id : Int) (current : Bool) : TodoApp :=
  load_todos { app with
    db := app.db.map fun t =>
      if t.id = id then { t with done := !current } else t }

/-- `fn delete_todo` (soft delete): `UPDATE todos SET deleted = 1 WHERE
id = ?`, then reload. -/
def delete_todo (app : TodoApp) (id : Int) : TodoApp :=
  load_todos { app with
    db := app.db.map fun t =>
      if t.id = id then { t with deleted := true } else t }

/-- `fn restore_todo`: `UPDATE todos SET deleted = 0 WHERE id = ?`, then
reload. -/
def restore_todo (app : TodoApp) (id : Int) : TodoApp :=
  load_todos { app with
    db := app.db.map fun t =>
      if t.id = id then { t with deleted := false } else t }

/-- `fn update_todo`: returns early when the trimmed edit-title buffer is
empty; otherwise `UPDATE todos SET title = ?, description = ? WHERE
id = ?` with the trimmed title and trimmed-or-NULL description, then
reload. -/
def update_todo (app : TodoApp) (id : Int) : TodoApp :=
  let t := trim app.edit_title
  if t = "" then app
  else
    let d := trim app.edit_description
    let d_opt := if d = "" then none else some d
    load_todos { app with
      db := app.db.map fun r =>
        if r.id = id then { r with title := t, description := d_opt }
        else r }

/-- `fn filtered_todos`: the snapshot filtered by the active filter. -/
def filtered_todos (app : TodoApp) : List TodoItem :=
  app.todos.filter fun t =>
    match app.filter with
    | Filter.All => !t.deleted
    | Filter.Active => !t.done && !t.deleted
    | Filter.Completed => t.done && !t.deleted
    | Filter.Deleted => t.deleted

/-- The Save-button handler of the edit row (src/main.rs lines 231-234):
calls `update_todo` and then clears the edit target unconditionally. -/
def save_clicked (app : TodoApp) (id : Int) : TodoApp :=
  let app2 := update_todo app id
  { app2 with edit_todo_id := none }

/-- `fn TodoApp::new` run against a fresh database file: an empty table,
empty form buffers, no edit target and the `All` filter. -/
def TodoApp.new : TodoApp :=
  { db := [], next_id := 1, todos := [], new_title := "",
    new_description := "", edit_todo_id := none, edit_title := "",
    edit_description := "", filter := Filter.All }

/-- One user interaction processed by the frame-update loop: typing into
one of the four text buffers, picking a filter, opening or cancelling an
edit, or clicking one of the Add / checkbox / delete / restore / Save
buttons (which run the store operations of the same name). -/
inductive Step : TodoApp → TodoApp → Prop where
  | typeNewTitle (app : TodoApp) (s : String) :
      Step app { app with new_title := s }
  | typeNewDescription (app : TodoApp) (s : String) :
      Step app { app with new_description := s }
  | typeEditTitle (app : TodoApp) (s : String) :
      Step app { app with edit_title := s }
  | typeEditDescription (app : TodoApp) (s : String) :
      Step app { app with edit_description := s }
  | selectFilter (app : TodoApp) (f : Filter) :
      Step app { app with filter := f }
  | startEdit (app : TodoApp) (id : Int) (t d : String) :
      Step app { app with edit_todo_id := some id, edit_title := t,
                          edit_description := d }
  | cancelClick (app : TodoApp) :
      Step app { app with edit_todo_id := none }
  | addClick (app : TodoApp) : Step app (add_todo app)
  | toggleClick (app : TodoApp) (id : Int) (current : Bool) :
      Step app (toggle_done app id current)
  | deleteClick (app : TodoApp) (id : Int) : Step app (delete_todo app id)
  | restoreClick (app : TodoApp) (id : Int) : Step app (restore_todo app id)
  | updateCall (app : TodoApp) (id : Int) : Step app (update_todo app id)
  | saveClick (app : TodoApp) (id : Int) : Step app (save_clicked app id)

/-- States reachable from a fresh start by any sequence of interactions. -/
inductive Reachable : TodoApp → Prop where
  | start : Reachable TodoApp.new
  | step {a b : TodoApp} : Reachable a → Step a b → Reachable b

/-- Every persisted row has a title that is non-empty and already
trimmed. -/
def titles_ok (l : List TodoItem) : Prop :=
  ∀ t ∈ l, trim t.title = t.title ∧ t.title ≠ ""

/-- A concrete state used to instantiate theorems: one stored row and
text pending in the new-task form. -/
def sampleApp : TodoApp :=
  { db := [{ id := 1, title := "x", description := none, done := false,
             deleted := false }],
    next_id := 2,
    todos := [{ id := 1, title := "x", description := none, done := false,
                deleted := false }],
    new_title := "  Buy milk  ",
    new_description := " ",
    edit_todo_id := none,
    edit_title := " ",
    edit_description := "notes",
    filter := Filter.All }

/-- A concrete state whose new-title and edit-title buffers trim to the
empty string. -/
def blankApp : TodoApp :=
  { db := [{ id := 1, title := "x", description := none, done := false,
             deleted := false }],
    next_id := 2,
    todos := [{ id := 1, title := "x", description := none, done := false,
                deleted := false }],
    new_title := "   ",
    new_description := "whatever",
    edit_todo_id := some 1,
    edit_title := "  ",
    edit_description := "junk",
    filter := Filter.All }

/-- A concrete state with an edit in progress whose edit-title buffer
trims to a non-empty string. -/
def sampleEditApp : TodoApp :=
  { db := [{ id := 1, title := "x", description := none, done := false,
             deleted := false },
           { id := 2, title := "y", description := some "d", done := true,
             deleted := true }],
    next_id := 3,
    todos := [{ id := 1, title := "x", description := none, done := false,
                deleted := false },
              { id := 2, title := "y", description := some "d", done := true,
                deleted := true }],
    new_title := "",
    new_description := "",
    edit_todo_id := some 1,
    edit_title := "  New  ",
    edit_description := " notes ",
    filter := Filter.Active }

/-! ### Helper lemmas about trimming -/

theorem head?_dropWhile_false (p : α → Bool) (l : List α) (a : α)
    (h : (l.dropWhile p).head? = some a) : p a = false := by
  have hthis := List.head?_dropWhile_not p l
  rw [h] at hthis
  exact hthis

theorem dropWhile_eq_self_of_head (p : α → Bool) (l : List α)
    (h : ∀ a, l.head? = some a → p a = false) : l.dropWhile p = l := by
  cases l with
  | nil => rfl
  | cons x xs =>
    have hx : p x = false := h x rfl
    simp [List.dropWhile_cons, hx]

theorem getLast?_dropWhile (p : α → Bool) (l : List α)
    (h : l.dropWhile p ≠ []) : (l.dropWhile p).getLast? = l.getLast? := by
  induction l with
  | nil => simp at h
  | cons x xs ih =>
    by_cases hx : p x
    · rw [List.dropWhile_cons_of_pos hx] at h ⊢
      have hxs : xs ≠ [] := by
        intro he; subst he; simp at h
      rw [ih h]
      cases xs with
      | nil => simp at hxs
      | cons y ys => simp
    · rw [List.dropWhile_cons_of_neg hx]

theorem trimChars_head (l : List Char) (a : Char)
    (h : (trimChars l).head? = some a) : isWs a = false := by
  unfold trimChars at h
  rw [List.head?_reverse] at h
  have hne : (l.dropWhile isWs).reverse.dropWhile isWs ≠ [] := by
    intro he; rw [he] at h; simp at h
  rw [getLast?_dropWhile _ _ hne] at h
  rw [List.getLast?_reverse] at h
  exact head?_dropWhile_false _ _ _ h

theorem trimChars_getLast (l : List Char) (a : Char)
    (h : (trimChars l).getLast? = some a) : isWs a = false := by
  unfold trimChars at h
  rw [List.getLast?_reverse] at h
  exact head?_dropWhile_false _ _ _ h

theorem trimChars_idem (l : List Char) :
    trimChars (trimChars l) = trimChars l := by
  conv_lhs => rw [trimChars]
  rw [dropWhile_eq_self_of_head _ _ (trimChars_head l)]
  rw [dropWhile_eq_self_of_head _ _
    (fun a ha => trimChars_getLast l a (by rwa [List.head?_reverse] at ha))]
  exact List.reverse_reverse _

theorem trim_idem (s : String) : trim (trim s) = trim s :=
  congrArg String.mk (trimChars_idem s.data)

theorem map_eq_self_of_fix {l : List α} {f : α → α}
    (h : ∀ a ∈ l, f a = a) : l.map f = l := by
  conv_rhs => rw [← List.map_id l]
  exact List.map_congr_left h

/-! ### Claim theorems -/

/-- C1: a task is in `filtered_todos` exactly when it is in the snapshot
and the active filter's predicate holds: under `All` when
`deleted = false`, under `Active` when `done = false ∧ deleted = false`,
under `Completed` when `done = true ∧ deleted = false`, and under
`Deleted` when `deleted = true`.  In particular `All` excludes every
soft-deleted task and only `Deleted` includes them. -/
theorem filtered_todos_spec (app : TodoApp) (t : TodoItem) :
    t ∈ filtered_todos app ↔ t ∈ app.todos ∧
      (match app.filter with
       | Filter.All => t.deleted = false
       | Filter.Active => t.done = false ∧ t.deleted = false
       | Filter.Completed => t.done = true ∧ t.deleted = false
       | Filter.Deleted => t.deleted = true) := by
  rcases app with ⟨db, nid, todos, nt, nd, eid, et, ed, f⟩
  cases f <;> simp [filtered_todos, List.mem_filter]

/-- C2: after `add_todo` with a non-empty trimmed title buffer, the
snapshot equals the reloaded table, which is the old table plus exactly
one new row carrying the trimmed title, the trimmed-or-absent
description, `done = false` and `deleted = false`; all pre-existing rows
are unchanged. -/
theorem add_todo_spec (app : TodoApp) (h : trim app.new_title ≠ "") :
    (add_todo app).todos = (add_todo app).db ∧
    (add_todo app).db = app.db ++
      [{ id := app.next_id, title := trim app.new_title,
         description := if trim app.new_description = "" then none
                        else some (trim app.new_description),
         done := false, deleted := false }] := by
  unfold add_todo load_todos
  simp [h]

/-- Witness for C2 at a concrete state. -/
theorem add_todo_spec_witness :
    (add_todo sampleApp).todos = (add_todo sampleApp).db ∧
    (add_todo sampleApp).db = sampleApp.db ++
      [{ id := 2, title := "Buy milk", description := none,
         done := false, deleted := false }] :=
  add_todo_spec sampleApp (by decide)

/-- C3: `toggle_done id current` rewrites every row whose id matches to
the same row with `done := !current` — regardless of the row's stored
`done` value — and leaves every other row untouched; the snapshot is the
reloaded table, and when no row carries the id the whole state is
unchanged (the reload still happens but reproduces the old snapshot). -/
theorem toggle_done_spec (app : TodoApp) (id : Int) (current : Bool)
    (hs : app.todos = app.db) :
    (toggle_done app id current).todos = (toggle_done app id current).db ∧
    (∀ i : Nat, (toggle_done app id current).db[i]? =
      (app.db[i]?).map fun t =>
        if t.id = id then { t with done := !current } else t) ∧
    ((∀ t ∈ app.db, t.id ≠ id) → toggle_done app id current = app) := by
  refine ⟨rfl, fun i => ?_, fun hno => ?_⟩
  · simp [toggle_done, load_todos]
  · have hmap : (app.db.map fun t =>
        if t.id = id then { t with done := !current } else t) = app.db := by
      refine map_eq_self_of_fix fun t ht => ?_
      simp [hno t ht]
    rcases app with ⟨db, nid, todos, nt, nd, eid, et, ed, f⟩
    simp only [toggle_done, load_todos] at *
    simp [hmap, hs]

/-- Witness for C3 at a concrete state: the stored row with id 1 and
`done = false` is toggled to `done = true`. -/
theorem toggle_done_spec_witness :
    (toggle_done sampleApp 1 false).db[0]? =
      some { id := 1, title := "x", description := none, done := true,
             deleted := false } := by
  rw [(toggle_done_spec sampleApp 1 false rfl).2.1 0]
  rfl

/-- C4: `delete_todo id` followed by `restore_todo id` rewrites every row
whose id matches to the same row with `deleted := false` — keeping its
title, description and done value — and leaves every other row untouched;
the snapshot is the reloaded table. -/
theorem delete_restore_spec (app : TodoApp) (id : Int) :
    (restore_todo (delete_todo app id) id).todos =
      (restore_todo (delete_todo app id) id).db ∧
    ∀ i : Nat, (restore_todo (delete_todo app id) id).db[i]? =
      (app.db[i]?).map fun t =>
        if t.id = id then { t with deleted := false } else t := by
  refine ⟨rfl, fun i => ?_⟩
  simp only [restore_todo, delete_todo, load_todos, List.map_map,
    List.getElem?_map]
  cases hdb : app.db[i]? with
  | none => rfl
  | some t =>
    obtain ⟨i, ti, de, dn, dl⟩ := t
    by_cases hid : i = id <;> simp [hid]

/-- C5: `restore_todo` on a state where every row carrying the id is
already non-deleted leaves the whole state unchanged, and `delete_todo`
on a state where every row carrying the id is already deleted likewise. -/
theorem restore_delete_idempotent (app : TodoApp) (id : Int)
    (hs : app.todos = app.db) :
    ((∀ t ∈ app.db, t.id = id → t.deleted = false) →
      restore_todo app id = app) ∧
    ((∀ t ∈ app.db, t.id = id → t.deleted = true) →
      delete_todo app id = app) := by
  constructor
  · intro hall
    have hmap : (app.db.map fun t =>
        if t.id = id then { t with deleted := false } else t) = app.db := by
      refine map_eq_self_of_fix fun t ht => ?_
      have hd := hall t ht
      obtain ⟨i, ti, de, dn, dl⟩ := t
      by_cases hid : i = id
      · simp at hd
        simp [hid, hd hid]
      · simp [hid]
    rcases app with ⟨db, nid, todos, nt, nd, eid, et, ed, f⟩
    simp only [restore_todo, load_todos] at *
    simp [hmap, hs]
  · intro hall
    have hmap : (app.db.map fun t =>
        if t.id = id then { t with deleted := true } else t) = app.db := by
      refine map_eq_self_of_fix fun t ht => ?_
      have hd := hall t ht
      obtain ⟨i, ti, de, dn, dl⟩ := t
      by_cases hid : i = id
      · simp at hd
        simp [hid, hd hid]
      · simp [hid]
    rcases app with ⟨db, nid, todos, nt, nd, eid, et, ed, f⟩
    simp only [delete_todo, load_todos] at *
    simp [hmap, hs]

/-- Witness for C5 at a concrete state: no row carries id 99, so both
operations leave the state unchanged. -/
theorem restore_delete_idempotent_witness :
    restore_todo sampleApp 99 = sampleApp ∧
    delete_todo sampleApp 99 = sampleApp :=
  ⟨(restore_delete_idempotent sampleApp 99 rfl).1 (by decide),
   (restore_delete_idempotent sampleApp 99 rfl).2 (by decide)⟩

/-- C6: when the trimmed title buffer is empty, `add_todo` and
`update_todo` leave the whole state — in particular the persisted rows
and the snapshot — unchanged. -/
theorem empty_title_noop (app : TodoApp) (id : Int) :
    (trim app.new_title = "" → add_todo app = app) ∧
    (trim app.edit_title = "" → update_todo app id = app) := by
  constructor <;> intro h <;> simp [add_todo, update_todo, h]

/-- Witness for C6 at a concrete state whose buffers trim to empty. -/
theorem empty_title_noop_witness :
    add_todo blankApp = blankApp ∧ update_todo blankApp 1 = blankApp :=
  ⟨(empty_title_noop blankApp 1).1 (by decide),
   (empty_title_noop blankApp 1).2 (by decide)⟩

/-- C7: with a non-empty trimmed edit-title buffer, `update_todo id`
rewrites every row whose id matches to the same row with the trimmed
title and trimmed-or-absent description — keeping its `done` and
`deleted` fields — and leaves every other row untouched; the snapshot is
the reloaded table. -/
theorem update_todo_spec (app : TodoApp) (id : Int)
    (h : trim app.edit_title ≠ "") :
    (update_todo app id).todos = (update_todo app id).db ∧
    ∀ i : Nat, (update_todo app id).db[i]? = (app.db[i]?).map fun t =>
      if t.id = id then
        { t with title := trim app.edit_title,
                 description := if trim app.edit_description = "" then none
                                else some (trim app.edit_description) }
      else t := by
  constructor
  · simp [update_todo, load_todos, h]
  · intro i
    simp [update_todo, load_todos, h, List.getElem?_map]

/-- Witness for C7 at a concrete state: the edit buffers hold
`"  New  "` and `" notes "`, and the row with id 1 is updated to title
`"New"` and description `"notes"` with `done` and `deleted` intact. -/
theorem update_todo_spec_witness :
    (update_todo sampleEditApp 1).db[0]? =
      some { id := 1, title := "New", description := some "notes",
             done := false, deleted := false } := by
  rw [(update_todo_spec sampleEditApp 1 (by decide)).2 0]
  rfl

theorem titles_ok_map {l : List TodoItem} {f : TodoItem → TodoItem}
    (hf : ∀ t, (f t).title = t.title) (h : titles_ok l) :
    titles_ok (l.map f) := by
  intro t ht
  rcases List.mem_map.mp ht with ⟨s, hs, rfl⟩
  rw [hf s]
  exact h s hs

theorem titles_ok_add (app : TodoApp) (h : titles_ok app.db) :
    titles_ok (add_todo app).db := by
  by_cases hc : trim app.new_title = ""
  · simpa [add_todo, hc] using h
  · intro t ht
    simp only [add_todo, load_todos] at ht
    rw [if_neg hc] at ht
    rcases List.mem_append.mp ht with h1 | h2
    · exact h t h1
    · simp at h2
      subst h2
      exact ⟨trim_idem _, hc⟩

theorem titles_ok_update (app : TodoApp) (id : Int)
    (h : titles_ok app.db) : titles_ok (update_todo app id).db := by
  by_cases hc : trim app.edit_title = ""
  · simpa [update_todo, hc] using h
  · intro t ht
    simp only [update_todo, load_todos] at ht
    rw [if_neg hc] at ht
    rcases List.mem_map.mp ht with ⟨s, hs, rfl⟩
    by_cases hid : s.id = id
    · simp [hid]
      exact ⟨trim_idem _, hc⟩
    · simp [hid]
      exact h s hs

theorem step_titles_ok {a b : TodoApp} (hst : Step a b)
    (h : titles_ok a.db) : titles_ok b.db := by
  cases hst with
  | typeNewTitle s => exact h
  | typeNewDescription s => exact h
  | typeEditTitle s => exact h
  | typeEditDescription s => exact h
  | selectFilter f => exact h
  | startEdit i t d => exact h
  | cancelClick => exact h
  | addClick => exact titles_ok_add a h
  | toggleClick i current =>
      exact titles_ok_map (fun t => by by_cases hid : t.id = i <;> simp [hid]) h
  | deleteClick i =>
      exact titles_ok_map (fun t => by by_cases hid : t.id = i <;> simp [hid]) h
  | restoreClick i =>
      exact titles_ok_map (fun t => by by_cases hid : t.id = i <;> simp [hid]) h
  | updateCall i => exact titles_ok_update a i h
  | saveClick i => exact titles_ok_update a i h

/-- C8: in every state reachable from a fresh start by any sequence of
user interactions (typing, add, toggle, soft delete, restore, update,
save, cancel, filter changes), every persisted row has a non-empty title
that equals its own trimmed form. -/
theorem reachable_titles_ok (app : TodoApp) (h : Reachable app) :
    titles_ok app.db := by
  induction h with
  | start => intro t ht; simp [TodoApp.new] at ht
  | step hr hst ih => exact step_titles_ok hst ih

/-- Witness for C8: the state reached by typing `" A "` into the title
form and clicking Add satisfies the title invariant. -/
theorem reachable_titles_ok_witness :
    titles_ok (add_todo { TodoApp.new with new_title := " A " }).db :=
  reachable_titles_ok _
    (Reachable.step
      (Reachable.step Reachable.start (Step.typeNewTitle TodoApp.new " A "))
      (Step.addClick { TodoApp.new with new_title := " A " }))

/-- C9: the Save handler always clears the edit target (returning the row
to Viewing), and when the trimmed edit-title buffer is empty the
underlying update is a no-op: the table and the snapshot are unchanged
and the edit is silently discarded. -/
theorem save_clicked_spec (app : TodoApp) (id : Int) :
    (save_clicked app id).edit_todo_id = none ∧
    (trim app.edit_title = "" →
      (save_clicked app id).db = app.db ∧
      (save_clicked app id).todos = app.todos) := by
  refine ⟨rfl, fun h => ?_⟩
  simp [save_clicked, update_todo, h]

/-- Witness for C9 at a concrete state mid-edit whose edit-title buffer
trims to empty: Save exits edit mode and changes no row. -/
theorem save_clicked_spec_witness :
    (save_clicked blankApp 1).edit_todo_id = none ∧
    (save_clicked blankApp 1).db = blankApp.db ∧
    (save_clicked blankApp 1).todos = blankApp.todos :=
  ⟨(save_clicked_spec blankApp 1).1,
   (save_clicked_spec blankApp 1).2 (by decide)⟩

/-- C10: after `add_todo` with a non-empty trimmed title the two
new-task form buffers are cleared; after `add_todo` with an empty trimmed
title both buffers keep their previous contents. -/
theorem add_todo_buffers (app : TodoApp) :
    (trim app.new_title ≠ "" →
      (add_todo app).new_title = "" ∧
      (add_todo app).new_description = "") ∧
    (trim app.new_title = "" →
      (add_todo app).new_title = app.new_title ∧
      (add_todo app).new_description = app.new_description) := by
  constructor <;> intro h <;> simp [add_todo, load_todos, h]

/-- Witness for C10 at two concrete states: one whose title buffer trims
non-empty (buffers cleared) and one whose title buffer trims empty
(buffers kept). -/
theorem add_todo_buffers_witness :
    ((add_todo sampleApp).new_title = "" ∧
     (add_todo sampleApp).new_description = "") ∧
    ((add_todo blankApp).new_title = blankApp.new_title ∧
     (add_todo blankApp).new_description = blankApp.new_description) :=
  ⟨(add_todo_buffers sampleApp).1 (by decide),
   (add_todo_buffers blankApp).2 (by decide)⟩

end Todo
